import Mathlib

/-!
Verification model of `test-send-email.py` from the daily-brief repository.

The script is a linear pipeline: load a `.env` file into the process
environment, find the newest `output/daily-brief-*.html` report, validate
three required environment variables, and send the report over SMTP.
We embed the pipeline shallowly: the filesystem is a list of candidate
report files, the process environment is a partial map from keys to
values, and the SMTP layer is abstracted by an `Option String`
(`none` = the send succeeds, `some e` = a transport exception with
message `e` is raised inside the `try` block).
-/

/-- The process environment: a partial map from variable names to values,
mirroring `os.environ` / `os.getenv`. -/
def Env : Type := String → Option String

/-- The empty environment. -/
def emptyEnv : Env := fun _ => none

/-- `os.environ[key] = value`. -/
def setenv (env : Env) (k v : String) : Env :=
  fun x => if x = k then some v else env x

/-- A candidate report file in the `output/` directory: its name, its
filesystem modification timestamp (`st_mtime`), and its full text content. -/
structure FileInfo where
  name : String
  mtime : Nat
  content : String
deriving Repr, DecidableEq

/- ## Characters used by the `.env` parser -/

/-- The double-quote character `"`. -/
def dquoteChar : Char := Char.ofNat 34

/-- The single-quote character. -/
def squoteChar : Char := Char.ofNat 39

/-- Whitespace as stripped by Python `str.strip()`. -/
def isSpaceChar (c : Char) : Bool := c.isWhitespace

/- ## `str.strip`, `str.split('=', 1)` and quote removal, on char lists -/

/-- Remove trailing whitespace (right half of Python `str.strip()`). -/
def trimRightL (l : List Char) : List Char :=
  (l.reverse.dropWhile isSpaceChar).reverse

/-- Python `str.strip()` on a char list: drop leading and trailing whitespace. -/
def trimL (l : List Char) : List Char :=
  trimRightL (l.dropWhile isSpaceChar)

/-- Python `line.split('=', 1)`: the part before the first occurrence of `c`
and the part after it (assuming `c` occurs). -/
def splitAtFirst (c : Char) : List Char → List Char × List Char
  | [] => ([], [])
  | x :: xs =>
    if x = c then ([], xs)
    else
      let p := splitAtFirst c xs
      (x :: p.1, p.2)

/-- `s.startswith(c)` for a single character `c`. -/
def headIs (s : String) (c : Char) : Bool := s.data.head? == some c

/-- `s.endswith(c)` for a single character `c`. -/
def lastIs (s : String) (c : Char) : Bool := s.data.getLast? == some c

/-- Python `value[1:-1]`: drop the first and the last character. -/
def dropEnds (s : String) : String := String.mk ((s.data.drop 1).dropLast)

/-- Quote removal of `load_env_file`: if the value starts and ends with a
double quote, or starts and ends with a single quote, strip that one
surrounding pair; otherwise keep the value verbatim. -/
def stripQuotes (v : String) : String :=
  if headIs v dquoteChar && lastIs v dquoteChar then dropEnds v
  else if headIs v squoteChar && lastIs v squoteChar then dropEnds v
  else v

/- ## One line of the `.env` file -/

/-- Result of processing one line of the `.env` file: either the line is
skipped, or it yields an environment entry. -/
inductive LineResult where
  | skip : LineResult
  | entry : String → String → LineResult
deriving Repr, DecidableEq

/-- The per-line logic of `load_env_file`: strip the line; skip comments,
empty lines, and lines without `=`; split at the first `=`; strip key and
value; remove one pair of surrounding quotes; skip empty values. -/
def parseLine (raw : String) : LineResult :=
  let line := trimL raw.data
  if line.head? == some '#' || line.isEmpty || !(line.contains '=') then
    LineResult.skip
  else
    let p := splitAtFirst '=' line
    let key := String.mk (trimL p.1)
    let value := stripQuotes (String.mk (trimL p.2))
    if value = "" then LineResult.skip
    else LineResult.entry key value

/-- The masked preview printed for each loaded value:
`"   Loaded: {key}={'*' * min(len(value), 8)}..."`. -/
def maskedPreview (k v : String) : String :=
  "   Loaded: " ++ k ++ "=" ++ String.mk (List.replicate (min v.length 8) '*') ++ "..."

/-- The loop of `load_env_file`: process each line in order, installing each
parsed entry into the environment with `os.environ[key] = value` and
collecting the masked-preview output lines. -/
def loadLines (env : Env) : List String → Env × List String
  | [] => (env, [])
  | raw :: rest =>
    match parseLine raw with
    | LineResult.skip => loadLines env rest
    | LineResult.entry k v =>
      let r := loadLines (setenv env k v) rest
      (r.1, maskedPreview k v :: r.2)

/-- `load_env_file`: if the `.env` file does not exist, print a notice and
return with the environment untouched; otherwise run the line loop and
print a final confirmation. Returns the updated environment and the
console output of the step. -/
def load_env_file (fileExists : Bool) (fileLines : List String) (env : Env) :
    Env × List String :=
  if fileExists then
    let r := loadLines env fileLines
    (r.1, r.2 ++ ["✅ Loaded environment variables from .env file"])
  else
    (env, ["No .env file found"])

/- ## `send_test_email` -/

/-- The three required environment variables. -/
def requiredVars : List String :=
  ["GMAIL_USERNAME", "GMAIL_APP_PASSWORD", "EMAIL_RECIPIENT"]

/-- `not os.getenv(var)`: the variable is absent, or set to the empty
string (falsy). -/
def isMissing (env : Env) (k : String) : Bool :=
  match env k with
  | none => true
  | some v => v == ""

/-- Python `', '.join`. -/
def joinComma : List String → String
  | [] => ""
  | [x] => x
  | x :: y :: xs => x ++ ", " ++ joinComma (y :: xs)

/-- `max(html_files, key=lambda f: f.stat().st_mtime)`: fold over the tail,
replacing the current best only on a strictly greater timestamp (so the
first file attaining the maximum wins, as Python `max` does). -/
def maxByMtime (f : FileInfo) (fs : List FileInfo) : FileInfo :=
  fs.foldl (fun best x => if best.mtime < x.mtime then x else best) f

/-- Observable outcome of one `send_test_email` call: the boolean result,
the console output, the content read from disk (if any file was read),
whether control reached the SMTP section, and the HTML body actually
transmitted (if the send succeeded). -/
structure RunResult where
  success : Bool
  output : List String
  fileRead : Option String
  networkAttempted : Bool
  sentBody : Option String
deriving Repr, DecidableEq

/-- `send_test_email`: find the latest `daily-brief-*.html` file (abort if
none), read it, check the three required variables (abort naming the
missing ones), then build and send the message, catching any transport
exception. `files` is the glob result, `smtp` abstracts the `try` block. -/
def send_test_email (files : List FileInfo) (env : Env) (smtp : Option String) :
    RunResult :=
  match files with
  | [] =>
    { success := false
      output := ["❌ No HTML files found. Run \x27npm run dev\x27 first."]
      fileRead := none
      networkAttempted := false
      sentBody := none }
  | f :: fs =>
    let latest := maxByMtime f fs
    let html_content := latest.content
    let missing := requiredVars.filter (isMissing env)
    if missing = [] then
      let sender := (env "GMAIL_USERNAME").getD ""
      let receiver := (env "EMAIL_RECIPIENT").getD ""
      let header : List String :=
        ["📧 Using HTML file: " ++ latest.name,
         "📤 Sending test email...",
         "   From: " ++ sender,
         "   To: " ++ receiver,
         "   Subject: Daily Brief - Test Email"]
      match smtp with
      | none =>
        { success := true
          output := header ++
            ["✅ HTML email sent successfully!",
             "🔍 Check your email client to verify HTML rendering"]
          fileRead := some html_content
          networkAttempted := true
          sentBody := some html_content }
      | some e =>
        { success := false
          output := header ++ ["❌ Failed to send email: " ++ e]
          fileRead := some html_content
          networkAttempted := true
          sentBody := none }
    else
      { success := false
        output :=
          ("📧 Using HTML file: " ++ latest.name) ::
          ("❌ Missing environment variables: " ++ joinComma missing) ::
          "Set these in your .env file:" ::
          missing.map (fun v => "  " ++ v ++ "=your_value_here")
        fileRead := some html_content
        networkAttempted := false
        sentBody := none }

/-- `sys.exit(0 if success else 1)`. -/
def exitCode (r : RunResult) : Nat := if r.success then 0 else 1

/-- The `__main__` block: load the `.env` file, run `send_test_email`, and
exit with `0` on success and `1` otherwise. Returns the exit status and the
combined console output. -/
def mainRun (fileExists : Bool) (fileLines : List String) (env0 : Env)
    (files : List FileInfo) (smtp : Option String) : Nat × List String :=
  let l := load_env_file fileExists fileLines env0
  let r := send_test_email files l.1 smtp
  (exitCode r, l.2 ++ r.output)

/-- The last value the `.env` file assigns to key `k`, if any line of the
file yields an entry for `k`. -/
def lastEntry (k : String) : List String → Option String
  | [] => none
  | raw :: rest =>
    match lastEntry k rest with
    | some v => some v
    | none =>
      match parseLine raw with
      | LineResult.skip => none
      | LineResult.entry k2 v => if k2 = k then some v else none

/- ## Helper lemmas -/

/-- Eta for strings. -/
theorem mk_data (s : String) : String.mk s.data = s := by
  cases s
  rfl

/-- Appending strings concatenates the underlying char lists. -/
theorem strData_append (a b : String) : (a ++ b).data = a.data ++ b.data := by
  cases a
  cases b
  rfl

/-- Appending the empty string on the right is the identity. -/
theorem strAppend_empty (s : String) : s ++ "" = s := by
  cases s with
  | mk l => show String.mk (l ++ []) = String.mk l
            rw [List.append_nil]

/-- Dropping leading whitespace does nothing when the first char is not
whitespace (or the list is empty). -/
theorem dropWhileSpace_eq_self {l : List Char}
    (h : l.head?.any isSpaceChar = false) : l.dropWhile isSpaceChar = l := by
  cases l with
  | nil => rfl
  | cons a t =>
    have ha : isSpaceChar a = false := by simpa using h
    simp [List.dropWhile_cons, ha]

/-- Trailing-whitespace removal does nothing when the last char is not
whitespace (or the list is empty). -/
theorem trimRightL_eq_self {l : List Char}
    (h : l.getLast?.any isSpaceChar = false) : trimRightL l = l := by
  unfold trimRightL
  cases hr : l.reverse with
  | nil =>
    rw [List.dropWhile_nil]
    rw [List.reverse_eq_nil_iff] at hr
    simp [hr]
  | cons d s =>
    have hd : l.getLast? = some d := by
      rw [← List.head?_reverse, hr]
      rfl
    have hds : isSpaceChar d = false := by
      rw [hd] at h
      simpa using h
    rw [List.dropWhile_cons, hds]
    simp only [Bool.false_eq_true, if_false]
    rw [← hr, List.reverse_reverse]

/-- `trimL` does nothing on a list with non-whitespace ends. -/
theorem trimL_eq_self {l : List Char} (h1 : l.head?.any isSpaceChar = false)
    (h2 : l.getLast?.any isSpaceChar = false) : trimL l = l := by
  unfold trimL
  rw [dropWhileSpace_eq_self h1, trimRightL_eq_self h2]

/-- Every character surviving `trimL` was in the original list. -/
theorem trimL_subset (l : List Char) : trimL l ⊆ l := by
  intro a ha
  unfold trimL trimRightL at ha
  rw [List.mem_reverse] at ha
  have ha2 := (List.dropWhile_sublist isSpaceChar).subset ha
  rw [List.mem_reverse] at ha2
  exact (List.dropWhile_sublist isSpaceChar).subset ha2

/-- A contained character is reported by `List.contains`. -/
theorem contains_true_of_mem {l : List Char} {c : Char} (h : c ∈ l) :
    l.contains c = true := by
  simpa using h

/-- `splitAtFirst` splits at the first occurrence of the separator. -/
theorem splitAtFirst_append (c : Char) (l m : List Char) (h : c ∉ l) :
    splitAtFirst c (l ++ c :: m) = (l, m) := by
  induction l with
  | nil => simp [splitAtFirst]
  | cons x xs ih =>
    have hx : ¬ x = c := fun he => h (he ▸ List.mem_cons_self x xs)
    rw [List.cons_append]
    simp only [splitAtFirst, if_neg hx]
    rw [ih (fun hm => h (List.mem_cons_of_mem _ hm))]

/-- The fold underlying `maxByMtime` returns one of its inputs. -/
theorem foldlMax_mem (fs : List FileInfo) : ∀ b : FileInfo,
    fs.foldl (fun best x => if best.mtime < x.mtime then x else best) b ∈ b :: fs := by
  induction fs with
  | nil => intro b; simp
  | cons x xs ih =>
    intro b
    rw [List.foldl_cons]
    have h := ih (if b.mtime < x.mtime then x else b)
    rw [List.mem_cons] at h
    rcases h with h | h
    · rw [h]
      by_cases hc : b.mtime < x.mtime <;> simp [hc]
    · simp [List.mem_cons, h]

/-- The fold underlying `maxByMtime` never decreases the timestamp of the
running best. -/
theorem foldlMax_init_le (fs : List FileInfo) : ∀ b : FileInfo,
    b.mtime ≤ (fs.foldl (fun best x => if best.mtime < x.mtime then x else best) b).mtime := by
  induction fs with
  | nil => intro b; exact Nat.le_refl _
  | cons x xs ih =>
    intro b
    rw [List.foldl_cons]
    refine Nat.le_trans ?_ (ih (if b.mtime < x.mtime then x else b))
    by_cases hc : b.mtime < x.mtime <;> simp [hc]
    exact Nat.le_of_lt hc

/-- The fold underlying `maxByMtime` dominates every input timestamp. -/
theorem foldlMax_ge (fs : List FileInfo) : ∀ b g : FileInfo, g ∈ b :: fs →
    g.mtime ≤ (fs.foldl (fun best x => if best.mtime < x.mtime then x else best) b).mtime := by
  induction fs with
  | nil =>
    intro b g hg
    rw [List.mem_singleton] at hg
    rw [hg]
    exact Nat.le_refl _
  | cons x xs ih =>
    intro b g hg
    rw [List.foldl_cons]
    rw [List.mem_cons, List.mem_cons] at hg
    rcases hg with hg | hg | hg
    · refine Nat.le_trans ?_ (foldlMax_init_le xs _)
      rw [hg]
      by_cases hc : b.mtime < x.mtime <;> simp [hc]
      exact Nat.le_of_lt hc
    · refine Nat.le_trans ?_ (foldlMax_init_le xs _)
      rw [hg]
      by_cases hc : b.mtime < x.mtime <;> simp [hc]
      exact Nat.le_of_not_lt hc
    · exact ih _ g (List.mem_cons_of_mem _ hg)

/-- `getLast?` of a list ending in a nonempty tail is the tail's last. -/
theorem getLast?_append_cons_eq (l : List Char) (c : Char) (m : List Char) :
    (l ++ c :: m).getLast? = (c :: m).getLast? := by
  simpa using List.getLast?_append_of_ne_nil l (show c :: m ≠ [] by simp)

/-- The environment after the loader's line loop: a key assigned by the file
holds the last value the file assigns it; a key never assigned keeps its
pre-existing value. -/
theorem loadLines_env_eq (lines : List String) : ∀ (env : Env) (k : String),
    (loadLines env lines).1 k = (lastEntry k lines).elim (env k) some := by
  induction lines with
  | nil => intro env k; rfl
  | cons raw rest ih =>
    intro env k
    cases hp : parseLine raw with
    | skip =>
      simp only [loadLines, lastEntry, hp]
      rw [ih env k]
      cases lastEntry k rest <;> rfl
    | entry k2 v =>
      simp only [loadLines, lastEntry, hp]
      rw [ih (setenv env k2 v) k]
      cases hl : lastEntry k rest with
      | some w => rfl
      | none =>
        by_cases hk : k2 = k
        · subst hk
          simp [setenv]
        · simp only [if_neg hk, Option.elim]
          simp only [setenv]
          rw [if_neg (fun h : k = k2 => hk h.symm)]

/-- Definitional unfolding of `parseLine`. -/
theorem parseLine_unfold (raw : String) :
    parseLine raw =
      if (trimL raw.data).head? == some '#' || (trimL raw.data).isEmpty
          || !((trimL raw.data).contains '=') then
        LineResult.skip
      else
        if stripQuotes (String.mk (trimL (splitAtFirst '=' (trimL raw.data)).2)) = "" then
          LineResult.skip
        else
          LineResult.entry (String.mk (trimL (splitAtFirst '=' (trimL raw.data)).1))
            (stripQuotes (String.mk (trimL (splitAtFirst '=' (trimL raw.data)).2))) := rfl

/-- `parseLine` on a line `key=token`, for a clean key (nonempty, no
whitespace at its ends, no `=`, not starting with `#`) and a token with no
whitespace at its ends: the key is the text before the first `=`, the
value is the quote-stripped token, and the line yields an entry exactly
when that value is nonempty. -/
theorem parseLine_split (k w : String)
    (hne : k.data ≠ [])
    (hk1 : k.data.head?.any isSpaceChar = false)
    (hk2 : k.data.getLast?.any isSpaceChar = false)
    (hkeq : k.data.contains '=' = false)
    (hkh : k.data.head? ≠ some '#')
    (hw1 : w.data.head?.any isSpaceChar = false)
    (hw2 : w.data.getLast?.any isSpaceChar = false) :
    parseLine (k ++ "=" ++ w) =
      if stripQuotes w = "" then LineResult.skip
      else LineResult.entry k (stripQuotes w) := by
  have hdata : (k ++ "=" ++ w).data = k.data ++ '=' :: w.data := by
    rw [strData_append, strData_append, List.append_assoc]
    rfl
  have hmemEq : ('=' : Char) ∈ k.data ++ '=' :: w.data :=
    List.mem_append_right _ (List.mem_cons_self _ _)
  have hnotmem : ('=' : Char) ∉ k.data := by
    intro hm
    rw [contains_true_of_mem hm] at hkeq
    cases hkeq
  have hheadA : (k.data ++ '=' :: w.data).head? = k.data.head? := by
    rw [List.head?_append]
    cases hkd : k.data with
    | nil => exact absurd hkd hne
    | cons c t => rfl
  have hlastA : (k.data ++ '=' :: w.data).getLast?.any isSpaceChar = false := by
    rw [getLast?_append_cons_eq]
    cases hwd : w.data with
    | nil => decide
    | cons a u =>
      rw [List.getLast?_cons_cons, ← hwd]
      exact hw2
  have htrim : trimL (k.data ++ '=' :: w.data) = k.data ++ '=' :: w.data := by
    apply trimL_eq_self
    · rw [hheadA]
      exact hk1
    · exact hlastA
  have hsplit : splitAtFirst '=' (k.data ++ '=' :: w.data) = (k.data, w.data) :=
    splitAtFirst_append '=' k.data w.data hnotmem
  have h1 : (k.data.head? == some ('#' : Char)) = false := beq_eq_false_iff_ne.mpr hkh
  have h2 : (k.data ++ '=' :: w.data).isEmpty = false := by
    cases k.data <;> simp
  have hcond : ((k.data ++ '=' :: w.data).head? == some '#'
      || (k.data ++ '=' :: w.data).isEmpty
      || !((k.data ++ '=' :: w.data).contains '=')) = false := by
    rw [hheadA, h1, contains_true_of_mem hmemEq, h2]
    rfl
  rw [parseLine_unfold, hdata, htrim, hcond, hsplit]
  rw [show (k.data, w.data).2 = w.data from rfl, show (k.data, w.data).1 = k.data from rfl]
  rw [trimL_eq_self hw1 hw2, trimL_eq_self hk1 hk2, mk_data, mk_data]
  simp

/-- A double quote as a one-character string. -/
def dq : String := String.mk [dquoteChar]

/-- A single quote as a one-character string. -/
def sqS : String := String.mk [squoteChar]

/-- The char list underlying a value wrapped in one pair of `c`. -/
theorem wrap_data (c : Char) (v : String) :
    (String.mk [c] ++ v ++ String.mk [c]).data = c :: (v.data ++ [c]) := by
  rw [strData_append, strData_append, List.append_assoc]
  rfl

/-- Stripping a double-quoted value removes exactly the outer pair. -/
theorem stripQuotes_dquoted (v : String) : stripQuotes (dq ++ v ++ dq) = v := by
  unfold dq
  have hd := wrap_data dquoteChar v
  have hhead : (String.mk [dquoteChar] ++ v ++ String.mk [dquoteChar]).data.head? =
      some dquoteChar := by
    rw [hd]
    rfl
  have hlast : (String.mk [dquoteChar] ++ v ++ String.mk [dquoteChar]).data.getLast? =
      some dquoteChar := by
    rw [hd,
      show dquoteChar :: (v.data ++ [dquoteChar]) =
        (dquoteChar :: v.data) ++ [dquoteChar] from rfl,
      List.getLast?_concat]
  unfold stripQuotes headIs lastIs
  rw [hhead, hlast, if_pos (by decide)]
  unfold dropEnds
  rw [hd]
  show String.mk (v.data ++ [dquoteChar]).dropLast = v
  rw [List.dropLast_concat]

/-- Stripping a single-quoted value removes exactly the outer pair. -/
theorem stripQuotes_squoted (v : String) : stripQuotes (sqS ++ v ++ sqS) = v := by
  unfold sqS
  have hd := wrap_data squoteChar v
  have hhead : (String.mk [squoteChar] ++ v ++ String.mk [squoteChar]).data.head? =
      some squoteChar := by
    rw [hd]
    rfl
  have hlast : (String.mk [squoteChar] ++ v ++ String.mk [squoteChar]).data.getLast? =
      some squoteChar := by
    rw [hd,
      show squoteChar :: (v.data ++ [squoteChar]) =
        (squoteChar :: v.data) ++ [squoteChar] from rfl,
      List.getLast?_concat]
  unfold stripQuotes headIs lastIs
  rw [hhead, hlast, if_neg (by decide), if_pos (by decide)]
  unfold dropEnds
  rw [hd]
  show String.mk (v.data ++ [squoteChar]).dropLast = v
  rw [List.dropLast_concat]

/-- A value not wrapped in a matching pair of quotes is kept verbatim. -/
theorem stripQuotes_eq_self (v : String)
    (h1 : (headIs v dquoteChar && lastIs v dquoteChar) = false)
    (h2 : (headIs v squoteChar && lastIs v squoteChar) = false) :
    stripQuotes v = v := by
  unfold stripQuotes
  rw [h1, h2]
  simp

/-- A clean key token: nonempty, no whitespace at either end, no `=`
separator, and not starting the line as a comment. -/
def GoodKey (k : String) : Prop :=
  k.data ≠ [] ∧ k.data.head?.any isSpaceChar = false ∧
  k.data.getLast?.any isSpaceChar = false ∧
  k.data.contains '=' = false ∧ k.data.head? ≠ some '#'

instance (k : String) : Decidable (GoodKey k) := by
  unfold GoodKey
  infer_instance

/- ## Claim theorems -/

/-- C6: when the output directory contains no file matching
`daily-brief-*.html`, the run reports the failure message and exits with a
non-zero status, reading no file and never reaching the SMTP section. -/
theorem no_report_abort (env : Env) (smtp : Option String)
    (fileExists : Bool) (fileLines : List String) (env0 : Env) :
    send_test_email [] env smtp =
      { success := false,
        output := ["❌ No HTML files found. Run \x27npm run dev\x27 first."],
        fileRead := none, networkAttempted := false, sentBody := none } ∧
    exitCode (send_test_email [] env smtp) = 1 ∧
    (mainRun fileExists fileLines env0 [] smtp).1 = 1 := by
  refine ⟨rfl, rfl, ?_⟩
  unfold mainRun
  cases fileExists <;> rfl

/-- C8: when the `.env` file does not exist, the loading step returns the
environment unchanged and prints only the not-found notice, and the
pipeline still proceeds to report discovery with that same environment. -/
theorem env_file_absent_noop (fileLines : List String) (env : Env)
    (files : List FileInfo) (smtp : Option String) :
    load_env_file false fileLines env = (env, ["No .env file found"]) ∧
    (load_env_file false fileLines env).1 = env ∧
    (mainRun false fileLines env files smtp).2 =
      "No .env file found" :: (send_test_email files env smtp).output ∧
    (mainRun false fileLines env files smtp).1 =
      exitCode (send_test_email files env smtp) :=
  ⟨rfl, rfl, rfl, rfl⟩

/-- C4 (counterexample): loading `A=new` over an environment where `A` is
already `old` leaves `A` bound to `new` — the loader does override
pre-existing environment entries. -/
theorem env_loader_overrides_cex :
    (setenv emptyEnv "A" "old") "A" = some "old" ∧
    (load_env_file true ["A=new"] (setenv emptyEnv "A" "old")).1 "A" = some "new" ∧
    (load_env_file true ["A=new"] (setenv emptyEnv "A" "old")).1 "A" ≠ some "old" := by
  refine ⟨rfl, by decide, by decide⟩

/-- C4 (amended): after the loader runs over an existing `.env` file, a key
assigned by some line of the file holds the last value the file assigns to
it (overriding any pre-existing environment value), and a key assigned by
no line keeps its pre-existing environment value. -/
theorem env_loader_last_assignment_wins (fileLines : List String) (env : Env)
    (k : String) :
    (load_env_file true fileLines env).1 k =
      (lastEntry k fileLines).elim (env k) some := by
  have h : (load_env_file true fileLines env).1 = (loadLines env fileLines).1 := rfl
  rw [h, loadLines_env_eq]

/-- C7: the masked preview shows at most 8 mask characters, and its text
depends on the value only through `min(len(value), 8)` — two values that
agree on that quantity produce identical preview output. -/
theorem masked_preview_bounded (k v v2 : String)
    (h : min v.length 8 = min v2.length 8) :
    (String.mk (List.replicate (min v.length 8) '*')).length ≤ 8 ∧
    maskedPreview k v = maskedPreview k v2 := by
  constructor
  · show (List.replicate (min v.length 8) '*').length ≤ 8
    rw [List.length_replicate]
    exact Nat.min_le_right _ _
  · unfold maskedPreview
    rw [h]

/-- C7 witness: two different 10- and 9-character secrets yield the same
preview, which shows 8 mask characters. -/
theorem masked_preview_bounded_checked :
    (String.mk (List.replicate (min ("aaaaaaaaaa" : String).length 8) '*')).length ≤ 8 ∧
    maskedPreview "KEY" "aaaaaaaaaa" = maskedPreview "KEY" "bbbbbbbbb" :=
  masked_preview_bounded "KEY" "aaaaaaaaaa" "bbbbbbbbb" (by decide)

/-- A fully configured environment for concrete runs. -/
def envFull : Env :=
  setenv (setenv (setenv emptyEnv "GMAIL_USERNAME" "user") "GMAIL_APP_PASSWORD" "pw")
    "EMAIL_RECIPIENT" "rcpt"

/-- C2: with a report file present but one or more required configuration
entries absent or empty, the run prints exactly the missing entries (the
required variables that are unset or empty, in order), never reaches the
SMTP section, and exits with a non-zero status. -/
theorem missing_vars_report_and_abort (f : FileInfo) (fs : List FileInfo)
    (env : Env) (smtp : Option String)
    (h : requiredVars.filter (isMissing env) ≠ []) :
    (send_test_email (f :: fs) env smtp).networkAttempted = false ∧
    (send_test_email (f :: fs) env smtp).success = false ∧
    exitCode (send_test_email (f :: fs) env smtp) = 1 ∧
    (send_test_email (f :: fs) env smtp).output =
      ("📧 Using HTML file: " ++ (maxByMtime f fs).name) ::
      ("❌ Missing environment variables: " ++
        joinComma (requiredVars.filter (isMissing env))) ::
      "Set these in your .env file:" ::
      (requiredVars.filter (isMissing env)).map
        (fun v => "  " ++ v ++ "=your_value_here") ∧
    (∀ x, x ∈ requiredVars.filter (isMissing env) ↔
      x ∈ requiredVars ∧ isMissing env x = true) := by
  have hr : send_test_email (f :: fs) env smtp =
      { success := false,
        output :=
          ("📧 Using HTML file: " ++ (maxByMtime f fs).name) ::
          ("❌ Missing environment variables: " ++
            joinComma (requiredVars.filter (isMissing env))) ::
          "Set these in your .env file:" ::
          (requiredVars.filter (isMissing env)).map
            (fun v => "  " ++ v ++ "=your_value_here"),
        fileRead := some (maxByMtime f fs).content,
        networkAttempted := false,
        sentBody := none } := by
    simp only [send_test_email]
    rw [if_neg h]
  rw [hr]
  refine ⟨rfl, rfl, rfl, rfl, fun x => List.mem_filter⟩

/-- C2 witness: with only the sender account set, the run reports the two
missing variables, stays off the network, and exits 1. -/
theorem missing_vars_report_and_abort_checked :
    requiredVars.filter (isMissing (setenv emptyEnv "GMAIL_USERNAME" "user")) =
      ["GMAIL_APP_PASSWORD", "EMAIL_RECIPIENT"] ∧
    (send_test_email [⟨"daily-brief-1.html", 3, "<html>A</html>"⟩]
      (setenv emptyEnv "GMAIL_USERNAME" "user") none).networkAttempted = false ∧
    exitCode (send_test_email [⟨"daily-brief-1.html", 3, "<html>A</html>"⟩]
      (setenv emptyEnv "GMAIL_USERNAME" "user") none) = 1 := by
  have h := missing_vars_report_and_abort ⟨"daily-brief-1.html", 3, "<html>A</html>"⟩ []
    (setenv emptyEnv "GMAIL_USERNAME" "user") none (by decide)
  exact ⟨by decide, h.1, h.2.2.1⟩

/-- C3: with a report present and all required variables set, a clean SMTP
run returns success, exits 0 and prints the success confirmation; any
transport exception is caught, its message is printed, and the run exits 1. -/
theorem send_exit_status (f : FileInfo) (fs : List FileInfo) (env : Env)
    (h : requiredVars.filter (isMissing env) = []) :
    ((send_test_email (f :: fs) env none).success = true ∧
     exitCode (send_test_email (f :: fs) env none) = 0 ∧
     "✅ HTML email sent successfully!" ∈ (send_test_email (f :: fs) env none).output) ∧
    (∀ e : String,
     (send_test_email (f :: fs) env (some e)).success = false ∧
     exitCode (send_test_email (f :: fs) env (some e)) = 1 ∧
     ("❌ Failed to send email: " ++ e) ∈
       (send_test_email (f :: fs) env (some e)).output) := by
  refine ⟨⟨?_, ?_, ?_⟩, fun e => ⟨?_, ?_, ?_⟩⟩ <;>
    simp [send_test_email, h, exitCode]

/-- C3 witness: with a full configuration, a clean send exits 0 and a
transport exception exits 1. -/
theorem send_exit_status_checked :
    requiredVars.filter (isMissing envFull) = [] ∧
    exitCode (send_test_email [⟨"daily-brief-1.html", 3, "<html>A</html>"⟩]
      envFull none) = 0 ∧
    exitCode (send_test_email [⟨"daily-brief-1.html", 3, "<html>A</html>"⟩]
      envFull (some "boom")) = 1 := by
  have h := send_exit_status ⟨"daily-brief-1.html", 3, "<html>A</html>"⟩ [] envFull
    (by decide)
  exact ⟨by decide, h.1.2.1, (h.2 "boom").2.1⟩

/-- C1: with at least one matching report file, the selected file is one of
the matches and its modification timestamp is greatest among them; the
content read from disk is that file's full text, and on a successful send
it is exactly the transmitted HTML body. -/
theorem latest_file_wins (f : FileInfo) (fs : List FileInfo) (env : Env) :
    maxByMtime f fs ∈ f :: fs ∧
    (∀ g ∈ f :: fs, g.mtime ≤ (maxByMtime f fs).mtime) ∧
    (∀ smtp : Option String,
      (send_test_email (f :: fs) env smtp).fileRead =
        some (maxByMtime f fs).content) ∧
    (requiredVars.filter (isMissing env) = [] →
      (send_test_email (f :: fs) env none).sentBody =
        some (maxByMtime f fs).content) := by
  refine ⟨foldlMax_mem fs f, fun g hg => foldlMax_ge fs f g hg, ?_, ?_⟩
  · intro smtp
    by_cases h : requiredVars.filter (isMissing env) = []
    · cases smtp <;> simp [send_test_email, h]
    · simp [send_test_email, h]
  · intro h
    simp [send_test_email, h]

/-- C1 witness: of two reports with timestamps 3 and 7, the newer one's
content is the transmitted body. -/
theorem latest_file_wins_checked :
    maxByMtime ⟨"daily-brief-1.html", 3, "<html>A</html>"⟩
      [⟨"daily-brief-2.html", 7, "<html>B</html>"⟩] =
      ⟨"daily-brief-2.html", 7, "<html>B</html>"⟩ ∧
    (send_test_email
      [⟨"daily-brief-1.html", 3, "<html>A</html>"⟩,
       ⟨"daily-brief-2.html", 7, "<html>B</html>"⟩]
      envFull none).sentBody = some "<html>B</html>" := by
  have h := latest_file_wins ⟨"daily-brief-1.html", 3, "<html>A</html>"⟩
    [⟨"daily-brief-2.html", 7, "<html>B</html>"⟩] envFull
  exact ⟨by decide, h.2.2.2 (by decide)⟩

/-- C5: configuration line rules: `KEY="value"` yields entry `KEY` =
`value` with the surrounding quotes stripped; `KEY=` yields no entry; a
line whose stripped text starts with `#` yields no entry; lines that are
empty (after stripping) or contain no `=` separator yield no entry; and a
line that yields an entry installs it in the environment. -/
theorem env_line_rules :
    (∀ k v : String, GoodKey k → v ≠ "" →
      parseLine (k ++ "=" ++ (dq ++ v ++ dq)) = LineResult.entry k v) ∧
    (∀ k : String, GoodKey k → parseLine (k ++ "=") = LineResult.skip) ∧
    (∀ raw : String, (trimL raw.data).head? = some '#' →
      parseLine raw = LineResult.skip) ∧
    (∀ raw : String, trimL raw.data = [] → parseLine raw = LineResult.skip) ∧
    (∀ raw : String, raw.data.contains '=' = false →
      parseLine raw = LineResult.skip) ∧
    (∀ (raw k v : String) (env : Env), parseLine raw = LineResult.entry k v →
      (load_env_file true [raw] env).1 k = some v) := by
  refine ⟨?_, ?_, ?_, ?_, ?_, ?_⟩
  · intro k v hk hv
    obtain ⟨hne, hk1, hk2, hkeq, hkh⟩ := hk
    have hwd : (dq ++ v ++ dq).data = dquoteChar :: (v.data ++ [dquoteChar]) :=
      wrap_data dquoteChar v
    have hw1 : (dq ++ v ++ dq).data.head?.any isSpaceChar = false := by
      rw [hwd]
      show Option.any isSpaceChar (some dquoteChar) = false
      decide
    have hw2 : (dq ++ v ++ dq).data.getLast?.any isSpaceChar = false := by
      rw [hwd, show dquoteChar :: (v.data ++ [dquoteChar]) =
        (dquoteChar :: v.data) ++ [dquoteChar] from rfl, List.getLast?_concat]
      decide
    rw [parseLine_split k (dq ++ v ++ dq) hne hk1 hk2 hkeq hkh hw1 hw2,
      stripQuotes_dquoted, if_neg hv]
  · intro k hk
    obtain ⟨hne, hk1, hk2, hkeq, hkh⟩ := hk
    rw [← strAppend_empty (k ++ "=")]
    rw [parseLine_split k "" hne hk1 hk2 hkeq hkh (by decide) (by decide),
      if_pos (by decide)]
  · intro raw hr
    rw [parseLine_unfold, hr]
    simp
  · intro raw hr
    rw [parseLine_unfold, hr]
    simp
  · intro raw hc
    have hct : (trimL raw.data).contains '=' = false := by
      cases hb : (trimL raw.data).contains '=' with
      | false => rfl
      | true =>
        have hm : ('=' : Char) ∈ trimL raw.data := by simpa using hb
        have hm2 : ('=' : Char) ∈ raw.data := trimL_subset raw.data hm
        rw [contains_true_of_mem hm2] at hc
        cases hc
    rw [parseLine_unfold, hct]
    simp
  · intro raw k v env hp
    have h0 : (load_env_file true [raw] env).1 = (loadLines env [raw]).1 := rfl
    rw [h0]
    simp only [loadLines, hp]
    simp [setenv, loadLines]

/-- C5 witness: the five line shapes behave as stated on concrete lines,
and a parsed entry lands in the environment. -/
theorem env_line_rules_checked :
    parseLine ("KEY" ++ "=" ++ (dq ++ "value" ++ dq)) = LineResult.entry "KEY" "value" ∧
    parseLine ("KEY" ++ "=") = LineResult.skip ∧
    parseLine "# comment" = LineResult.skip ∧
    parseLine "   " = LineResult.skip ∧
    parseLine "NOSEPARATOR" = LineResult.skip ∧
    (load_env_file true ["K=v"] emptyEnv).1 "K" = some "v" := by
  obtain ⟨h1, h2, h3, h4, h5, h6⟩ := env_line_rules
  exact ⟨h1 "KEY" "value" (by decide) (by decide), h2 "KEY" (by decide),
    h3 "# comment" (by decide), h4 "   " (by decide),
    h5 "NOSEPARATOR" (by decide), h6 "K=v" "K" "v" emptyEnv (by decide)⟩

/-- C9: for a line with a clean key token and a clean unquoted value
token, the key is the text before the first `=` and the value is the
entire text after it — the value may itself contain `=` characters. -/
theorem split_at_first_separator (k v : String) (hk : GoodKey k)
    (hv1 : v.data.head?.any isSpaceChar = false)
    (hv2 : v.data.getLast?.any isSpaceChar = false)
    (hvq : stripQuotes v = v) (hvne : v ≠ "") :
    parseLine (k ++ "=" ++ v) = LineResult.entry k v := by
  obtain ⟨hne, hk1, hk2, hkeq, hkh⟩ := hk
  rw [parseLine_split k v hne hk1 hk2 hkeq hkh hv1 hv2, hvq, if_neg hvne]

/-- C9 witness: `KEY=a=b` yields entry `KEY` with value `a=b`. -/
theorem split_at_first_separator_checked :
    parseLine ("KEY" ++ "=" ++ "a=b") = LineResult.entry "KEY" "a=b" :=
  split_at_first_separator "KEY" "a=b" (by decide) (by decide) (by decide)
    (by decide) (by decide)

/-- C10: quote stripping removes exactly one surrounding pair and only
when the first and last characters are the same quote: wrapped values
(double or single) lose only the outer pair, a doubly-quoted value keeps
its inner pair, mismatched quotes are kept verbatim, and a value that is a
single quote character strips to empty, so such a line yields no entry. -/
theorem quote_stripping_rules :
    (∀ v : String, stripQuotes (dq ++ v ++ dq) = v) ∧
    (∀ v : String, stripQuotes (sqS ++ v ++ sqS) = v) ∧
    (∀ v : String,
      (headIs v dquoteChar && lastIs v dquoteChar) = false →
      (headIs v squoteChar && lastIs v squoteChar) = false →
      stripQuotes v = v) ∧
    (∀ u : String, stripQuotes (dq ++ (dq ++ u ++ dq) ++ dq) = dq ++ u ++ dq) ∧
    stripQuotes dq = "" ∧ stripQuotes sqS = "" ∧
    (∀ k : String, GoodKey k → parseLine (k ++ "=" ++ dq) = LineResult.skip) := by
  refine ⟨stripQuotes_dquoted, stripQuotes_squoted, stripQuotes_eq_self,
    fun u => stripQuotes_dquoted (dq ++ u ++ dq), by decide, by decide, ?_⟩
  intro k hk
  obtain ⟨hne, hk1, hk2, hkeq, hkh⟩ := hk
  rw [parseLine_split k dq hne hk1 hk2 hkeq hkh (by decide) (by decide),
    if_pos (by decide)]

/-- C10 witness: concrete quote-stripping behaviour, including a
mismatched `"abc'` value kept verbatim and a bare `"` discarded. -/
theorem quote_stripping_rules_checked :
    stripQuotes (dq ++ "abc" ++ dq) = "abc" ∧
    stripQuotes "\x22abc\x27" = "\x22abc\x27" ∧
    stripQuotes (dq ++ (dq ++ "hi" ++ dq) ++ dq) = dq ++ "hi" ++ dq ∧
    stripQuotes dq = "" ∧
    parseLine ("KEY" ++ "=" ++ dq) = LineResult.skip := by
  obtain ⟨q1, q2, q3, q4, q5, q6, q7⟩ := quote_stripping_rules
  exact ⟨q1 "abc", q3 "\x22abc\x27" (by decide) (by decide), q4 "hi", q5,
    q7 "KEY" (by decide)⟩
